import Mathlib

/-!
Verification development for the p5-physics repository: a small 2D
rigid-body simulation core (Body kinematics, edge handling, collision
resolution, and World orchestration).

The definitions below are shallow embeddings of the current revision of
the source: the accessor-based Body/DrawableBody class (src/unnamed/part_002,
first document) and src/src/World.js.  Real-number kinematic state is
modelled over ℚ (all operations involved are field operations and order
comparisons).  Where JavaScript number special values (NaN, ±Infinity)
are semantically relevant — the coefficient-clamping setters and the
path bounding box — an explicit JS-number type JSNum is used.
-/

namespace P5

/-- 2D vector, embedding of the p5.Vector values used by the core
(component-wise add/sub, scalar mult/div, squared magnitude). -/
structure Vec where
  x : ℚ
  y : ℚ
deriving DecidableEq, Repr

def Vec.add (v w : Vec) : Vec := ⟨v.x + w.x, v.y + w.y⟩

def Vec.sub (v w : Vec) : Vec := ⟨v.x - w.x, v.y - w.y⟩

def Vec.smul (v : Vec) (s : ℚ) : Vec := ⟨v.x * s, v.y * s⟩

def Vec.sdiv (v : Vec) (s : ℚ) : Vec := ⟨v.x / s, v.y / s⟩

/-- Squared magnitude; mag() is greater than 0 exactly when magSq is. -/
def Vec.magSq (v : Vec) : ℚ := v.x * v.x + v.y * v.y

/-- JavaScript number with its special values; finite values over ℚ. -/
inductive JSNum where
  | nan : JSNum
  | inf : JSNum
  | ninf : JSNum
  | fin : ℚ → JSNum
deriving DecidableEq, Repr

/-- JS strict less-than: false whenever either side is NaN. -/
def JSNum.ltb : JSNum → JSNum → Bool
  | .nan, _ => false
  | _, .nan => false
  | .ninf, .ninf => false
  | .ninf, _ => true
  | _, .ninf => false
  | .inf, _ => false
  | _, .inf => true
  | .fin a, .fin b => decide (a < b)

/-- JS isFinite. -/
def JSNum.isFiniteJS : JSNum → Bool
  | .fin _ => true
  | _ => false

/-- JS isNaN. -/
def JSNum.isNaNJS : JSNum → Bool
  | .nan => true
  | _ => false

/-- Body of Body.coefficientOfRestitution(val) in its setter branch
(src/unnamed/part_002 lines 126-132): the value actually stored for a
given input.
  if (val < 0) val = 0;
  else if (val > 1 || !isFinite(val) || isNaN(val)) val = 1;
  this._cr = val; -/
def coefficientOfRestitutionSet (val : JSNum) : JSNum :=
  if JSNum.ltb val (.fin 0) then .fin 0
  else if JSNum.ltb (.fin 1) val || !val.isFiniteJS || val.isNaNJS then .fin 1
  else val

/-- Body of Body.coefficientOfFriction(val) in its setter branch
(src/unnamed/part_002 lines 135-141); textually the same clamp,
stored into this.μ. -/
def coefficientOfFrictionSet (val : JSNum) : JSNum :=
  if JSNum.ltb val (.fin 0) then .fin 0
  else if JSNum.ltb (.fin 1) val || !val.isFiniteJS || val.isNaNJS then .fin 1
  else val

/-- EdgeMode enum (src/unnamed/part_000). -/
inductive EdgeMode where
  | nothing : EdgeMode
  | hold : EdgeMode
  | wrap : EdgeMode
  | bounce : EdgeMode
deriving DecidableEq, Repr

/-- Kinematic and physical state of a Body (src/unnamed/part_002,
Body constructor lines 7-27).  Coefficients are carried as ℚ here: the
setters guarantee stored coefficients are finite (see JSNum clamp above),
and all kinematic claims use finite values.  world is the this._world
back-reference (owning world identified by an index, none when
detached). -/
structure Body where
  id : ℕ := 0
  pos : Vec
  vel : Vec := ⟨0, 0⟩
  acc : Vec := ⟨0, 0⟩
  w : ℚ := 0
  h : ℚ := 0
  mass : ℚ := 1
  cr : ℚ := 1
  μ : ℚ := 0
  static : Bool := false
  solid : Bool := true
  world : Option ℕ := none
deriving DecidableEq, Repr

/-- Body constructor new Body(x, y, w, h): vel = acc = 0, mass 1,
restitution 1, friction 0, dynamic, solid. -/
def Body.create (x y : ℚ) (w h : ℚ := 0) : Body :=
  { pos := ⟨x, y⟩, w := w, h := h }

/-- Body.applyForce(force) (src/unnamed/part_002 lines 158-165): no-op
when static; otherwise acc += force / mass (the default cbOnApply hook is
the identity). -/
def Body.applyForce (b : Body) (force : Vec) : Body :=
  if !b.static then
    { b with acc := b.acc.add (force.sdiv b.mass) }
  else b

/-- Body.update() (src/unnamed/part_002 lines 144-152) with the default
cbOnUpdate hook (which returns true, so a static body skips the branch):
vel += acc; pos += vel; acc := 0; returns whether the body moved. -/
def Body.update (b : Body) : Body × Bool :=
  if !b.static then
    let vel := b.vel.add b.acc
    let pos := b.pos.add vel
    ({ b with vel := vel, pos := pos, acc := ⟨0, 0⟩ }, true)
  else (b, false)

/-- World bounds and configuration consumed by Body.edges and
World.update (src/src/World.js constructor). -/
structure WorldCfg where
  x : ℚ
  y : ℚ
  w : ℚ
  h : ℚ
  edgeMode : EdgeMode := .nothing
  doCollisions : Bool := true
  gravity : Option Vec := some ⟨0, 1/10⟩

/-- Body.edges() (src/unnamed/part_002 lines 168-205), with the owning
world passed explicitly.  Each axis is handled in sequence exactly as in
the source (Hold uses four independent ifs; Wrap and Bounce use
if/else-if per axis). -/
def Body.edges (b : Body) (W : WorldCfg) : Body :=
  match W.edgeMode with
  | .nothing => b
  | .hold =>
    let b := if b.pos.x < W.x then { b with pos := ⟨W.x, b.pos.y⟩ } else b
    let b := if b.pos.x > W.x + W.w then { b with pos := ⟨W.x + W.w, b.pos.y⟩ } else b
    let b := if b.pos.y < W.y then { b with pos := ⟨b.pos.x, W.y⟩ } else b
    let b := if b.pos.y > W.y + W.h then { b with pos := ⟨b.pos.x, W.y + W.h⟩ } else b
    b
  | .wrap =>
    let b :=
      if b.pos.x < W.x then { b with pos := ⟨W.x + W.w, b.pos.y⟩ }
      else if b.pos.x > W.x + W.w then { b with pos := ⟨W.x, b.pos.y⟩ }
      else b
    let b :=
      if b.pos.y < W.y then { b with pos := ⟨b.pos.x, W.y + W.h⟩ }
      else if b.pos.y > W.y + W.h then { b with pos := ⟨b.pos.x, W.y⟩ }
      else b
    b
  | .bounce =>
    let b :=
      if b.pos.x < W.x then
        { b with pos := ⟨W.x, b.pos.y⟩, vel := ⟨-b.vel.x, b.vel.y⟩ }
      else if b.pos.x > W.x + W.w then
        { b with pos := ⟨W.x + W.w, b.pos.y⟩, vel := ⟨-b.vel.x, b.vel.y⟩ }
      else b
    let b :=
      if b.pos.y < W.y then
        { b with pos := ⟨b.pos.x, W.y⟩, vel := ⟨b.vel.x, -b.vel.y⟩ }
      else if b.pos.y > W.y + W.h then
        { b with pos := ⟨b.pos.x, W.y + W.h⟩, vel := ⟨b.vel.x, -b.vel.y⟩ }
      else b
    b

/-- Body.collide(a, b) (src/unnamed/part_002 lines 219-243), translated
branch for branch.  Note: in the b.static branch the source reads
"b.vel(a.vel().mult(-a.coefficientOfRestitution()))" — it assigns to the
STATIC body b, from a velocity and coefficient of a. -/
def Body.collide (a b : Body) : Body × Body :=
  if a.solid && b.solid then
    if a.static then
      (a, { b with vel := b.vel.smul (-b.cr) })
    else if b.static then
      (a, { b with vel := a.vel.smul (-a.cr) })
    else
      let a_m := a.mass
      let b_m := b.mass
      let a_mu := a.vel.smul a_m
      let b_mu := b.vel.smul b_m
      let velA := (((((b.vel.sub a.vel).smul b_m).smul a.cr).add a_mu).add b_mu).sdiv (a_m + b_m)
      let velB := (((((a.vel.sub b.vel).smul a_m).smul b.cr).add a_mu).add b_mu).sdiv (a_m + b_m)
      ({ a with vel := velA }, { b with vel := velB })
  else (a, b)

end P5

namespace P5

/-! ## Helper lemmas -/

lemma applyForce_static (b : Body) (f : Vec) : (b.applyForce f).static = b.static := by
  simp only [Body.applyForce]
  split <;> rfl

lemma foldl_applyForce_static (forces : List Vec) (b : Body) :
    (forces.foldl Body.applyForce b).static = b.static := by
  induction forces generalizing b with
  | nil => rfl
  | cons f fs ih => rw [List.foldl_cons, ih, applyForce_static]

lemma foldl_applyForce_of_static (forces : List Vec) (b : Body) (h : b.static = true) :
    forces.foldl Body.applyForce b = b := by
  induction forces with
  | nil => rfl
  | cons f fs ih => rw [List.foldl_cons, Body.applyForce, h]; simpa using ih

/-! ## Claims C1 - C5 -/

/-- Dynamic body for the C1 failing input: velocity (2, 0), restitution 0.8. -/
def C1_a : Body := { Body.create 0 0 with vel := ⟨2, 0⟩, cr := 4/5 }

/-- Static body for the C1 failing input: velocity (0, 0). -/
def C1_b : Body := { Body.create 10 0 with static := true }

/-- C1: evaluation of Body.collide at the failing input.  With a dynamic
(velocity (2,0), restitution 0.8) and b static, the claim (and the spec)
say a's velocity becomes (-8/5, 0) and b is unchanged; the code instead
leaves a completely unchanged and overwrites the STATIC body b's velocity
with -0.8 * a's velocity = (-8/5, 0). -/
theorem C1_static_branch_bug :
    C1_a.static = false ∧ C1_b.static = true ∧ C1_a.solid = true ∧ C1_b.solid = true ∧
    C1_b.vel = ⟨0, 0⟩ ∧
    (Body.collide C1_a C1_b).1 = C1_a ∧
    (Body.collide C1_a C1_b).2.vel = ⟨-8/5, 0⟩ := by
  refine ⟨rfl, rfl, rfl, rfl, rfl, ?_, ?_⟩ <;>
    norm_num [C1_a, C1_b, Body.create, Body.collide, Vec.smul]

/-- C2: two dynamic solid bodies, mass 1, restitution 1, head-on
velocities (2,0) and (-2,0): Body.collide produces the full exchange
(-2,0) / (2,0), both computed from the pre-collision velocities. -/
theorem C2_elastic_exchange (a b : Body)
    (hsta : a.static = false) (hstb : b.static = false)
    (hsa : a.solid = true) (hsb : b.solid = true)
    (hma : a.mass = 1) (hmb : b.mass = 1)
    (hca : a.cr = 1) (hcb : b.cr = 1)
    (hva : a.vel = ⟨2, 0⟩) (hvb : b.vel = ⟨-2, 0⟩) :
    (Body.collide a b).1.vel = ⟨-2, 0⟩ ∧ (Body.collide a b).2.vel = ⟨2, 0⟩ := by
  simp only [Body.collide, hsta, hstb, hsa, hsb, hma, hmb, hca, hcb, hva, hvb]
  norm_num [Vec.add, Vec.sub, Vec.smul, Vec.sdiv]

/-- First concrete body for the C2 witness. -/
def C2_a : Body := { Body.create 0 0 with vel := ⟨2, 0⟩ }

/-- Second concrete body for the C2 witness. -/
def C2_b : Body := { Body.create 5 0 with vel := ⟨-2, 0⟩ }

/-- C2 witness: the exchange on a concrete pair. -/
theorem C2_elastic_exchange_witness :
    (Body.collide C2_a C2_b).1.vel = ⟨-2, 0⟩ ∧ (Body.collide C2_a C2_b).2.vel = ⟨2, 0⟩ :=
  C2_elastic_exchange C2_a C2_b rfl rfl rfl rfl rfl rfl rfl rfl rfl rfl

/-- C3: starting from a body whose acceleration is (0,0) (as the
constructor makes it), after any sequence of applyForce calls followed by
update(), the acceleration is exactly (0,0) — for dynamic bodies update
resets it, and for static bodies applyForce never accumulated anything. -/
theorem C3_acc_zero_after_update (b : Body) (forces : List Vec) (h : b.acc = ⟨0, 0⟩) :
    ((forces.foldl Body.applyForce b).update).1.acc = ⟨0, 0⟩ := by
  cases hs : b.static with
  | true =>
    rw [foldl_applyForce_of_static forces b hs]
    simp [Body.update, hs, h]
  | false =>
    have hst := foldl_applyForce_static forces b
    rw [hs] at hst
    simp [Body.update, hst]

/-- C3 witness: a concrete dynamic body and two forces. -/
theorem C3_acc_zero_after_update_witness :
    (([⟨1, 2⟩, ⟨3, 4⟩] : List Vec).foldl Body.applyForce (Body.create 0 0)).update.1.acc
      = ⟨0, 0⟩ :=
  C3_acc_zero_after_update (Body.create 0 0) [⟨1, 2⟩, ⟨3, 4⟩] rfl

/-- C4 counterexample: -Infinity is an infinite input, yet both setters
store 0 for it (it satisfies the val < 0 branch first), not 1 as the
claim states for infinite inputs. -/
theorem C4_neg_infinity_counterexample :
    JSNum.isFiniteJS JSNum.ninf = false ∧
    coefficientOfRestitutionSet JSNum.ninf = JSNum.fin 0 ∧
    coefficientOfFrictionSet JSNum.ninf = JSNum.fin 0 := by
  refine ⟨rfl, ?_, ?_⟩ <;> decide

/-- C4 amended: both setters clamp to [0,1] and never raise; finite v
stores max 0 (min 1 v); NaN and +Infinity store 1; -Infinity stores 0
(caught by the negative branch); the friction setter behaves identically
to the restitution setter. -/
theorem C4_clamp_characterization :
    (∀ q : ℚ, coefficientOfRestitutionSet (.fin q) = .fin (max 0 (min 1 q))) ∧
    coefficientOfRestitutionSet .nan = .fin 1 ∧
    coefficientOfRestitutionSet .inf = .fin 1 ∧
    coefficientOfRestitutionSet .ninf = .fin 0 ∧
    (∀ v : JSNum, coefficientOfFrictionSet v = coefficientOfRestitutionSet v) := by
  refine ⟨?_, by decide, by decide, by decide, fun v => rfl⟩
  intro q
  by_cases h0 : q < 0 <;> by_cases h1 : 1 < q <;>
    simp [coefficientOfRestitutionSet, JSNum.ltb, JSNum.isFiniteJS, JSNum.isNaNJS,
      h0, h1, min_def, max_def] <;>
    split_ifs <;> first | rfl | linarith

/-- C5: under edgeMode Bounce, a body past the left bound with its
y-position inside the y-bounds gets its x-position set exactly to W.x and
its x-velocity negated; y-position and y-velocity are untouched. -/
theorem C5_bounce_left (b : Body) (W : WorldCfg)
    (hm : W.edgeMode = .bounce) (hx : b.pos.x < W.x)
    (hy1 : W.y ≤ b.pos.y) (hy2 : b.pos.y ≤ W.y + W.h) :
    b.edges W = { b with pos := ⟨W.x, b.pos.y⟩, vel := ⟨-b.vel.x, b.vel.y⟩ } := by
  have h1 : ¬ (b.pos.y < W.y) := not_lt.mpr hy1
  have h2 : ¬ (b.pos.y > W.y + W.h) := not_lt.mpr hy2
  simp [Body.edges, hm, hx, h1, h2]

/-- Concrete body for the C5 witness: position (-1, 5), velocity (-3, 4). -/
def C5_b : Body := { Body.create (-1) 5 with vel := ⟨-3, 4⟩ }

/-- Concrete world for the C5 witness: bounds (0,0)-(10,10), Bounce mode. -/
def C5_W : WorldCfg := { x := 0, y := 0, w := 10, h := 10, edgeMode := .bounce }

/-- C5 witness: the concrete body is clamped to x = 0 with x-velocity
flipped, y untouched. -/
theorem C5_bounce_left_witness :
    C5_b.edges C5_W = { C5_b with pos := ⟨0, 5⟩, vel := ⟨3, 4⟩ } := by
  have h := C5_bounce_left C5_b C5_W rfl
    (by norm_num [C5_b, C5_W, Body.create])
    (by norm_num [C5_b, C5_W, Body.create])
    (by norm_num [C5_b, C5_W, Body.create])
  rw [h]
  norm_num [C5_b, C5_W, Body.create]

end P5

namespace P5

/-! ## DrawableBody (src/unnamed/part_002, first document, lines 247-361)

Rendering state (stroke/fill colours) is out of scope; the embedded
fields are the ones the claims mention: drawing mode, path vertices
(absolute and position-relative), bounding box. -/

/-- DrawableBodyMode enum (src/unnamed/part_000). -/
inductive DrawableBodyMode where
  | point : DrawableBodyMode
  | ellipse : DrawableBodyMode
  | rectangle : DrawableBodyMode
  | path : DrawableBodyMode
deriving DecidableEq, Repr

/-- JS subtraction on JSNum (used by the Path bounding box, whose
accumulators start at ±Infinity). -/
def JSNum.sub : JSNum → JSNum → JSNum
  | .nan, _ => .nan
  | _, .nan => .nan
  | .inf, .inf => .nan
  | .inf, _ => .inf
  | .ninf, .ninf => .nan
  | .ninf, _ => .ninf
  | .fin _, .inf => .ninf
  | .fin _, .ninf => .inf
  | .fin a, .fin b => .fin (a - b)

/-- Bounding box record this._bb = { pos, w, h }; coordinates are JS
numbers because the Path case seeds its scan with ±Infinity. -/
structure BBox where
  posX : JSNum
  posY : JSNum
  w : JSNum
  h : JSNum
deriving DecidableEq, Repr

/-- Minimum scan of _calcBoundingBox, Path case: topleft starts at
Infinity and is lowered by every strictly smaller coordinate. -/
def pathMinCoord (coords : List ℚ) : JSNum :=
  coords.foldl (fun acc c => if (JSNum.fin c).ltb acc then .fin c else acc) .inf

/-- Maximum scan of _calcBoundingBox, Path case: bottomright starts at
-Infinity and is raised by every strictly larger coordinate. -/
def pathMaxCoord (coords : List ℚ) : JSNum :=
  coords.foldl (fun acc c => if acc.ltb (.fin c) then .fin c else acc) .ninf

/-- DrawableBody: the inherited Body state plus drawing mode, path
vertices (absolute _path and position-relative _oPath) and bounding box. -/
structure DrawableBody where
  base : Body
  mode : DrawableBodyMode := .rectangle
  oPath : List (ℚ × ℚ) := []
  path : List (ℚ × ℚ) := []
  bb : BBox := ⟨.nan, .nan, .fin 0, .fin 0⟩
deriving DecidableEq, Repr

/-- DrawableBody._calcBoundingBox() (src/unnamed/part_002 lines 267-300):
recomputes this._bb from the current mode, position, extents and path.
All four modes are covered, so the default throw branch is unreachable. -/
def DrawableBody.calcBoundingBox (d : DrawableBody) : DrawableBody :=
  match d.mode with
  | .point =>
    { d with bb := ⟨.fin d.base.pos.x, .fin d.base.pos.y, .fin 1, .fin 1⟩ }
  | .ellipse =>
    { d with bb := ⟨.fin (d.base.pos.x - d.base.w / 2), .fin (d.base.pos.y - d.base.h / 2),
                    .fin d.base.w, .fin d.base.h⟩ }
  | .rectangle =>
    { d with bb := ⟨.fin d.base.pos.x, .fin d.base.pos.y, .fin d.base.w, .fin d.base.h⟩ }
  | .path =>
    let tlx := pathMinCoord (d.path.map Prod.fst)
    let tly := pathMinCoord (d.path.map Prod.snd)
    let brx := pathMaxCoord (d.path.map Prod.fst)
    let bry := pathMaxCoord (d.path.map Prod.snd)
    { d with bb := ⟨tlx, tly, brx.sub tlx, bry.sub tly⟩ }

/-- DrawableBody constructor (src/unnamed/part_002 lines 248-264):
Rectangle mode, empty path, then _calcBoundingBox(). -/
def DrawableBody.create (x y w h : ℚ) : DrawableBody :=
  DrawableBody.calcBoundingBox { base := Body.create x y w h }

/-- DrawableBody.setPolygon(...vertices) (src/unnamed/part_002 lines
342-350).  The result is typed Except to record raised usage errors; the
method has no throwing branch.  It first sets this._mode to Path, then —
unless called as setPolygon(null), encoded here as the none argument —
stores the vertices as _path, re-expresses them relative to the current
position as _oPath, and recomputes the bounding box. -/
def DrawableBody.setPolygon (d : DrawableBody) (vertices : Option (List (ℚ × ℚ))) :
    Except String DrawableBody :=
  let d := { d with mode := DrawableBodyMode.path }
  match vertices with
  | some vs =>
    .ok (DrawableBody.calcBoundingBox
      { d with path := vs,
               oPath := vs.map (fun v => (v.1 - d.base.pos.x, v.2 - d.base.pos.y)) })
  | none => .ok d

/-- DrawableBody.setPath(...path), the legacy path mutator present in the
older revisions kept in the repository (src/unnamed/part_001 lines
145-149 and the setPath of src/src/Body.js): throws unless the drawing
mode is already Path. -/
def DrawableBody.setPath (d : DrawableBody) (p : List (ℚ × ℚ)) :
    Except String DrawableBody :=
  if d.mode ≠ DrawableBodyMode.path then
    .error "Cannot utilise method - drawing mode is not path"
  else .ok { d with path := p }

/-- Body.collide applied to DrawableBody instances: the inherited static
method reads and writes only base-class properties (solid, static, vel,
mass, coefficientOfRestitution), so on a subclass instance it acts
exactly on the embedded base state. -/
def DrawableBody.collide (a b : DrawableBody) : DrawableBody × DrawableBody :=
  let r := Body.collide a.base b.base
  ({ a with base := r.1 }, { b with base := r.2 })

/-! ## World membership model (src/src/World.js lines 30-48)

Worlds are indexed by number, bodies by their process-unique id.  A
state records, for every world, the ids in its bodies array, and for
every body, its _world back-reference. -/

/-- Ownership state across any number of World instances. -/
structure Worlds where
  collections : ℕ → List ℕ
  backRef : ℕ → Option ℕ

/-- World.addBody(body): body._world = this; this.bodies.push(body). -/
def Worlds.addBody (s : Worlds) (w b : ℕ) : Worlds :=
  { collections := fun w2 => if w2 = w then s.collections w ++ [b] else s.collections w2,
    backRef := fun b2 => if b2 = b then some w else s.backRef b2 }

/-- World.remove(body): indexOf + splice removes the first occurrence
from this.bodies; the back-reference is not touched. -/
def Worlds.removeBody (s : Worlds) (w b : ℕ) : Worlds :=
  { s with collections := fun w2 => if w2 = w then (s.collections w).erase b else s.collections w2 }

/-- Operation alphabet for C9: World.addBody / World.remove calls. -/
inductive WorldOp where
  | add (w b : ℕ) : WorldOp
  | remove (w b : ℕ) : WorldOp

/-- Apply one operation. -/
def Worlds.apply (s : Worlds) : WorldOp → Worlds
  | .add w b => s.addBody w b
  | .remove w b => s.removeBody w b

/-- Apply a sequence of operations in order. -/
def Worlds.applyAll (s : Worlds) (ops : List WorldOp) : Worlds :=
  ops.foldl Worlds.apply s

/-- World index of the last add operation for body b in the sequence, if
any. -/
def lastAddedWorld : List WorldOp → ℕ → Option ℕ
  | [], _ => none
  | op :: ops, b =>
    match lastAddedWorld ops b with
    | some w => some w
    | none =>
      match op with
      | .add w b2 => if b2 = b then some w else none
      | .remove _ _ => none

/-- Empty ownership state: no worlds hold bodies, no body is attached. -/
def Worlds.empty : Worlds := { collections := fun _ => [], backRef := fun _ => none }

end P5

namespace P5

/-! ## p5.Vector store model for the position accessor (C7)

Body.pos (src/unnamed/part_002 lines 33-39) deals in mutable p5.Vector
objects; .copy() allocates a fresh one.  A vector reference is an index
into an append-only store; writing to a reference models in-place
mutation of that vector object. -/

/-- Store of allocated vectors paired with the reference held by the
Body's _pos slot. -/
structure PosState where
  store : List Vec
  posRef : ℕ

/-- Allocate a fresh vector object holding value v. -/
def allocVec (store : List Vec) (v : Vec) : List Vec × ℕ :=
  (store ++ [v], store.length)

/-- Read the current value of the vector object behind a reference. -/
def readVec (store : List Vec) (r : ℕ) : Vec :=
  (store[r]?).getD ⟨0, 0⟩

/-- Mutate the vector object behind a reference in place. -/
def writeVec (store : List Vec) (r : ℕ) (v : Vec) : List Vec :=
  store.set r v

/-- Body.pos(vector) setter branch: this._pos = vector.copy() — the
internal slot points at a fresh copy of the argument's current value. -/
def posSet (st : PosState) (vr : ℕ) : PosState :=
  let a := allocVec st.store (readVec st.store vr)
  { store := a.1, posRef := a.2 }

/-- Body.pos() getter branch: return this._pos.copy() — a fresh copy of
the internal position's current value. -/
def posGet (st : PosState) : List Vec × ℕ :=
  allocVec st.store (readVec st.store st.posRef)

/-! ## Collision sweep of World.update (src/src/World.js lines 51-93)

Bodies are identified by their index in this.bodies (the array is not
reordered during a step; Body.collide mutates bodies in place, modelled
by List.set).  Narrow/broad-phase detection (DrawableBody.collision)
dispatches into the external p5.collide2D library and is therefore a
parameter: the dedup property is proved for every detector. -/

/-- State threaded through the pairwise sweep: current bodies,
the calculatedCollisions array, and a log with one entry per invocation
of Body.collide (entries are appended in the same branch that pushes to
calculatedCollisions). -/
structure SweepState where
  bodies : List Body
  calculated : List (ℕ × ℕ)
  resolutions : List (ℕ × ℕ)

/-- doneCollision(a, b) (src/src/World.js lines 68-73): is the unordered
pair already in calculatedCollisions? -/
def doneCollision (calculated : List (ℕ × ℕ)) (i j : ℕ) : Bool :=
  calculated.any fun c => (c.1 == i && c.2 == j) || (c.1 == j && c.2 == i)

/-- Number of entries matching the unordered pair (i, j). -/
def countPair (l : List (ℕ × ℕ)) (i j : ℕ) : ℕ :=
  l.countP fun c => (c.1 == i && c.2 == j) || (c.1 == j && c.2 == i)

/-- Body of the inner forEach (src/src/World.js lines 79-89): for the
ordered pair (i, j), if the two are distinct objects and the unordered
pair is not yet done, run detection; if they collide and the relative
velocity is nonzero (mag() > 0 iff magSq > 0), invoke Body.collide and
record the pair. -/
def collideStep (detect : Body → Body → Bool) (s : SweepState) (i j : ℕ) : SweepState :=
  if i != j && !(doneCollision s.calculated i j) then
    match s.bodies[i]?, s.bodies[j]? with
    | some A, some B =>
      if detect A B && decide (0 < (A.vel.sub B.vel).magSq) then
        let r := Body.collide A B
        { bodies := (s.bodies.set i r.1).set j r.2,
          calculated := s.calculated ++ [(i, j)],
          resolutions := s.resolutions ++ [(i, j)] }
      else s
    | _, _ => s
  else s

/-- Inner forEach over all of this.bodies for a fixed outer body i. -/
def innerLoop (detect : Body → Body → Bool) (js : List ℕ) (i : ℕ) (s : SweepState) :
    SweepState :=
  js.foldl (fun s2 j => collideStep detect s2 i j) s

/-- One outer forEach iteration (src/src/World.js lines 75-92): the inner
loop runs only if this.doCollisions and the current body i is solid. -/
def outerStep (doCollisions : Bool) (detect : Body → Body → Bool) (js : List ℕ)
    (s : SweepState) (i : ℕ) : SweepState :=
  if doCollisions && ((s.bodies[i]?).map Body.solid).getD false then
    innerLoop detect js i s
  else s

/-- The full pairwise collision sweep of World.update. -/
def sweep (doCollisions : Bool) (detect : Body → Body → Bool) (bodies : List Body) :
    SweepState :=
  (List.range bodies.length).foldl
    (outerStep doCollisions detect (List.range bodies.length))
    { bodies := bodies, calculated := [], resolutions := [] }

/-- Motion phase of World.update for one body (src/src/World.js lines
54-65): apply gravity scaled by mass (when gravity is set), integrate,
then handle edges when edgeMode is not None. -/
def World.motionStep (W : WorldCfg) (b : Body) : Body :=
  let b1 := match W.gravity with
    | some g => b.applyForce (g.smul b.mass)
    | none => b
  let b2 := (b1.update).1
  if W.edgeMode ≠ EdgeMode.nothing then b2.edges W else b2

/-- World.update(): motion phase over every body, then the pairwise
collision sweep. -/
def World.update (W : WorldCfg) (detect : Body → Body → Bool) (bodies : List Body) :
    SweepState :=
  sweep W.doCollisions detect (bodies.map (World.motionStep W))

end P5

namespace P5

/-! ## Pair-deduplication invariant of the collision sweep (C6) -/

lemma countPair_comm (l : List (ℕ × ℕ)) (a b : ℕ) : countPair l a b = countPair l b a := by
  unfold countPair
  induction l with
  | nil => rfl
  | cons p t ih =>
    rw [List.countP_cons, List.countP_cons, ih, Bool.or_comm]

lemma countPair_eq_zero_of_not_done (cal : List (ℕ × ℕ)) (i j : ℕ)
    (h : doneCollision cal i j = false) : countPair cal i j = 0 := by
  simp only [doneCollision, List.any_eq_false] at h
  simp only [countPair, List.countP_eq_zero]
  exact h

lemma countPair_append (l1 l2 : List (ℕ × ℕ)) (a b : ℕ) :
    countPair (l1 ++ l2) a b = countPair l1 a b + countPair l2 a b :=
  List.countP_append _ l1 l2

lemma countPair_push_le (cal : List (ℕ × ℕ)) (i j a b : ℕ)
    (h0 : doneCollision cal i j = false)
    (hle : countPair cal a b ≤ 1) :
    countPair (cal ++ [(i, j)]) a b ≤ 1 := by
  rw [countPair_append]
  have hsingle : countPair [(i, j)] a b ≤ 1 :=
    le_trans (List.countP_le_length _) (by simp)
  by_cases hm : (((i == a) && (j == b)) || ((i == b) && (j == a))) = true
  · have hz : countPair cal a b = 0 := by
      simp only [Bool.or_eq_true, Bool.and_eq_true, beq_iff_eq] at hm
      rcases hm with ⟨h1, h2⟩ | ⟨h1, h2⟩
      · subst h1; subst h2
        exact countPair_eq_zero_of_not_done cal i j h0
      · subst h1; subst h2
        rw [countPair_comm]
        exact countPair_eq_zero_of_not_done cal i j h0
    omega
  · have hz : countPair [(i, j)] a b = 0 := by
      simp only [countPair, List.countP_cons, List.countP_nil]
      simpa using hm
    omega

/-- Invariant maintained by the sweep: body count fixed, the resolution
log equals calculatedCollisions, every unordered pair occurs at most
once, and every recorded pair is a pair of distinct in-range indices. -/
def SweepInv (n : ℕ) (s : SweepState) : Prop :=
  s.bodies.length = n ∧
  s.resolutions = s.calculated ∧
  (∀ a b, countPair s.calculated a b ≤ 1) ∧
  (∀ p ∈ s.calculated, p.1 ≠ p.2 ∧ p.1 < n ∧ p.2 < n)

lemma collideStep_inv {detect : Body → Body → Bool} {n : ℕ} {s : SweepState}
    (i j : ℕ) (h : SweepInv n s) : SweepInv n (collideStep detect s i j) := by
  obtain ⟨hlen, hres, hcnt, hmem⟩ := h
  unfold collideStep
  split
  case isFalse => exact ⟨hlen, hres, hcnt, hmem⟩
  case isTrue hg =>
    rw [Bool.and_eq_true] at hg
    have hne : i ≠ j := by simpa using hg.1
    have hdone : doneCollision s.calculated i j = false := by simpa using hg.2
    split
    case h_2 => exact ⟨hlen, hres, hcnt, hmem⟩
    case h_1 A B hA hB =>
      split
      case isFalse => exact ⟨hlen, hres, hcnt, hmem⟩
      case isTrue =>
        have hi : i < n := hlen ▸ (List.getElem?_eq_some.mp hA).1
        have hj : j < n := hlen ▸ (List.getElem?_eq_some.mp hB).1
        refine ⟨by simp [List.length_set, hlen], by rw [hres], ?_, ?_⟩
        · intro a b
          exact countPair_push_le _ i j a b hdone (hcnt a b)
        · intro p hp
          rcases List.mem_append.mp hp with hold | hnew
          · exact hmem p hold
          · have : p = (i, j) := by simpa using hnew
            subst this
            exact ⟨hne, hi, hj⟩

lemma innerLoop_inv {detect : Body → Body → Bool} {n : ℕ} (js : List ℕ) (i : ℕ) :
    ∀ {s : SweepState}, SweepInv n s → SweepInv n (innerLoop detect js i s) := by
  induction js with
  | nil => intro s h; exact h
  | cons j js ih =>
    intro s h
    exact ih (collideStep_inv i j h)

lemma outerStep_inv {doCollisions : Bool} {detect : Body → Body → Bool} {n : ℕ}
    (js : List ℕ) (i : ℕ) {s : SweepState} (h : SweepInv n s) :
    SweepInv n (outerStep doCollisions detect js s i) := by
  unfold outerStep
  split
  · exact innerLoop_inv js i h
  · exact h

lemma foldl_outerStep_inv {doCollisions : Bool} {detect : Body → Body → Bool} {n : ℕ}
    (js : List ℕ) (is : List ℕ) :
    ∀ {s : SweepState}, SweepInv n s →
      SweepInv n (is.foldl (outerStep doCollisions detect js) s) := by
  induction is with
  | nil => intro s h; exact h
  | cons i is ih =>
    intro s h
    exact ih (outerStep_inv js i h)

lemma sweep_inv (doCollisions : Bool) (detect : Body → Body → Bool) (bodies : List Body) :
    SweepInv bodies.length (sweep doCollisions detect bodies) := by
  unfold sweep
  apply foldl_outerStep_inv
  refine ⟨rfl, rfl, ?_, ?_⟩
  · intro a b
    simp [countPair]
  · intro p hp
    simp at hp

lemma pair_in_three_sum (l : List (ℕ × ℕ))
    (hmem : ∀ p ∈ l, p.1 ≠ p.2 ∧ p.1 < 3 ∧ p.2 < 3) :
    l.length = countPair l 0 1 + countPair l 0 2 + countPair l 1 2 := by
  induction l with
  | nil => rfl
  | cons p t ih =>
    have hp := hmem p (List.mem_cons_self p t)
    have ht : ∀ q ∈ t, q.1 ≠ q.2 ∧ q.1 < 3 ∧ q.2 < 3 :=
      fun q hq => hmem q (List.mem_cons_of_mem p hq)
    rcases p with ⟨x, y⟩
    obtain ⟨hxy, hx, hy⟩ := hp
    simp only [List.length_cons, ih ht, countPair, List.countP_cons]
    interval_cases x <;> interval_cases y <;> simp_all <;> omega

lemma length_le_three (l : List (ℕ × ℕ))
    (hmem : ∀ p ∈ l, p.1 ≠ p.2 ∧ p.1 < 3 ∧ p.2 < 3)
    (hcnt : ∀ a b, countPair l a b ≤ 1) : l.length ≤ 3 := by
  rw [pair_in_three_sum l hmem]
  have h1 := hcnt 0 1
  have h2 := hcnt 0 2
  have h3 := hcnt 1 2
  omega

/-- C6: in one World.update() step, Body.collide runs at most once per
unordered pair of body indices, for every configuration, detector and
body list; with 3 bodies at most 3 resolutions happen, never 6. -/
theorem C6_pair_dedup (W : WorldCfg) (detect : Body → Body → Bool)
    (bodies : List Body) (i j : ℕ) :
    countPair (World.update W detect bodies).resolutions i j ≤ 1 ∧
    (bodies.length = 3 → (World.update W detect bodies).resolutions.length ≤ 3) := by
  obtain ⟨hlen, hres, hcnt, hmem⟩ :=
    sweep_inv W.doCollisions detect (bodies.map (World.motionStep W))
  have hupd : World.update W detect bodies
      = sweep W.doCollisions detect (bodies.map (World.motionStep W)) := rfl
  rw [hupd, hres]
  refine ⟨hcnt i j, ?_⟩
  intro h3
  have hmem3 : ∀ p ∈ (sweep W.doCollisions detect (bodies.map (World.motionStep W))).calculated,
      p.1 ≠ p.2 ∧ p.1 < 3 ∧ p.2 < 3 := by
    intro p hp
    have := hmem p hp
    simpa [h3] using this
  exact length_le_three _ hmem3 hcnt

/-- Concrete world for the C6 witness. -/
def C6_W : WorldCfg := { x := 0, y := 0, w := 10, h := 10 }

/-- Three concrete bodies for the C6 witness. -/
def C6_bodies : List Body := [Body.create 0 0, Body.create 1 0, Body.create 2 0]

/-- C6 witness: with an always-true detector and three bodies, the pair
(0, 1) is resolved at most once and at most 3 resolutions happen. -/
theorem C6_pair_dedup_witness :
    countPair (World.update C6_W (fun _ _ => true) C6_bodies).resolutions 0 1 ≤ 1 ∧
    (World.update C6_W (fun _ _ => true) C6_bodies).resolutions.length ≤ 3 :=
  ⟨(C6_pair_dedup C6_W (fun _ _ => true) C6_bodies 0 1).1,
   (C6_pair_dedup C6_W (fun _ _ => true) C6_bodies 0 1).2 rfl⟩

end P5

namespace P5

/-! ## Claims C7 - C10 -/

/-- C7: round-trip and copy semantics of the position accessor.  After
pos(v): reading the position back yields the value v had at set time;
the reference returned by the getter is distinct from the internal slot
and mutating the returned vector leaves the internal position unchanged;
the internal slot is also distinct from the argument reference, so
mutating v after the set leaves the internal position unchanged. -/
theorem C7_pos_copy_semantics (st : PosState) (vr : ℕ) (u : Vec)
    (hvr : vr < st.store.length) :
    readVec (posGet (posSet st vr)).1 (posGet (posSet st vr)).2 = readVec st.store vr ∧
    (posGet (posSet st vr)).2 ≠ (posSet st vr).posRef ∧
    readVec (writeVec (posGet (posSet st vr)).1 (posGet (posSet st vr)).2 u)
      ((posSet st vr).posRef) = readVec st.store vr ∧
    vr ≠ (posSet st vr).posRef ∧
    readVec (writeVec (posSet st vr).store vr u) ((posSet st vr).posRef)
      = readVec st.store vr := by
  have hread1 : readVec (posSet st vr).store (posSet st vr).posRef = readVec st.store vr := by
    simp [posSet, allocVec, readVec, List.getElem?_concat_length]
  refine ⟨?_, ?_, ?_, ?_, ?_⟩
  · rw [show (posGet (posSet st vr)).2 = (posSet st vr).store.length from rfl]
    rw [show (posGet (posSet st vr)).1
        = (posSet st vr).store ++ [readVec (posSet st vr).store (posSet st vr).posRef] from rfl]
    rw [readVec, List.getElem?_concat_length]
    simpa using hread1
  · show (posSet st vr).store.length ≠ (posSet st vr).posRef
    simp [posSet, allocVec]
  · rw [show (posGet (posSet st vr)).2 = (posSet st vr).store.length from rfl]
    have hlt : (posSet st vr).posRef < (posSet st vr).store.length := by
      simp [posSet, allocVec]
    rw [readVec, writeVec, List.getElem?_set_ne (Nat.ne_of_lt hlt).symm]
    rw [show (posGet (posSet st vr)).1
        = (posSet st vr).store ++ [readVec (posSet st vr).store (posSet st vr).posRef] from rfl]
    rw [List.getElem?_append_left hlt]
    exact hread1
  · show vr ≠ (posSet st vr).posRef
    have : (posSet st vr).posRef = st.store.length := rfl
    omega
  · have hne : vr ≠ (posSet st vr).posRef := by
      have : (posSet st vr).posRef = st.store.length := rfl
      omega
    rw [readVec, writeVec, List.getElem?_set_ne hne]
    exact hread1

/-- Concrete state for the C7 witness: one allocated vector (1, 2) which
is both the internal position and the setter argument. -/
def C7_st : PosState := { store := [⟨1, 2⟩], posRef := 0 }

/-- C7 witness: the round-trip and both non-aliasing facts on the
concrete state, with the copies mutated to (9, 9). -/
theorem C7_pos_copy_semantics_witness :
    readVec (posGet (posSet C7_st 0)).1 (posGet (posSet C7_st 0)).2 = readVec C7_st.store 0 ∧
    (posGet (posSet C7_st 0)).2 ≠ (posSet C7_st 0).posRef ∧
    readVec (writeVec (posGet (posSet C7_st 0)).1 (posGet (posSet C7_st 0)).2 ⟨9, 9⟩)
      ((posSet C7_st 0).posRef) = readVec C7_st.store 0 ∧
    (0 : ℕ) ≠ (posSet C7_st 0).posRef ∧
    readVec (writeVec (posSet C7_st 0).store 0 ⟨9, 9⟩) ((posSet C7_st 0).posRef)
      = readVec C7_st.store 0 :=
  C7_pos_copy_semantics C7_st 0 ⟨9, 9⟩ (by decide)

/-- C8 counterexample: a freshly constructed DrawableBody is in
Rectangle mode, not Path mode, yet setPolygon succeeds (returns ok, no
usage error) and switches the body into Path mode. -/
theorem C8_counterexample :
    (DrawableBody.create 0 0 4 4).mode = DrawableBodyMode.rectangle ∧
    ∃ d2, (DrawableBody.create 0 0 4 4).setPolygon (some [(0, 0), (1, 0), (0, 1)])
        = Except.ok d2 ∧ d2.mode = DrawableBodyMode.path :=
  ⟨rfl, _, rfl, rfl⟩

/-- C8 amended: the current polygon-vertex mutator setPolygon never
raises — it first switches the body into Path mode, so it succeeds from
any prior drawing mode; it is the legacy setPath mutator (kept in the
older revisions in the repository) that raises a usage error when the
drawing mode is not Path. -/
theorem C8_setPolygon_no_error (d : DrawableBody) (vs : Option (List (ℚ × ℚ)))
    (p : List (ℚ × ℚ)) (hm : d.mode ≠ DrawableBodyMode.path) :
    (∃ d2, d.setPolygon vs = Except.ok d2 ∧ d2.mode = DrawableBodyMode.path) ∧
    (∃ e, d.setPath p = Except.error e) := by
  constructor
  · cases vs with
    | some vs => exact ⟨_, rfl, rfl⟩
    | none => exact ⟨_, rfl, rfl⟩
  · refine ⟨"Cannot utilise method - drawing mode is not path", ?_⟩
    unfold DrawableBody.setPath
    rw [if_pos hm]

/-- C8 witness: both parts on a concrete Rectangle-mode body. -/
theorem C8_setPolygon_no_error_witness :
    (∃ d2, (DrawableBody.create 0 0 4 4).setPolygon (some [(2, 0), (0, 2)])
        = Except.ok d2 ∧ d2.mode = DrawableBodyMode.path) ∧
    (∃ e, (DrawableBody.create 0 0 4 4).setPath [(0, 0)] = Except.error e) :=
  C8_setPolygon_no_error (DrawableBody.create 0 0 4 4) (some [(2, 0), (0, 2)])
    [(0, 0)] (by decide)

/-- C9 counterexample: adding one body (id 7) to two worlds leaves it in
both worlds' collections at once; and after addBody followed by remove,
the collection no longer holds the body but its back-reference still
points at the former world instead of being unset. -/
theorem C9_counterexample :
    ((Worlds.empty.applyAll [WorldOp.add 0 7, WorldOp.add 1 7]).collections 0 = [7] ∧
     (Worlds.empty.applyAll [WorldOp.add 0 7, WorldOp.add 1 7]).collections 1 = [7]) ∧
    ((Worlds.empty.applyAll [WorldOp.add 0 7, WorldOp.remove 0 7]).backRef 7 = some 0 ∧
     (Worlds.empty.applyAll [WorldOp.add 0 7, WorldOp.remove 0 7]).collections 0 = []) := by
  refine ⟨⟨?_, ?_⟩, ?_, ?_⟩ <;> rfl

/-- C9 amended: addBody appends the body to the target world's
collection and repoints the back-reference there; remove deletes the
first occurrence from the collection but never touches the
back-reference.  Hence after any operation sequence a body's
back-reference equals the world of its most recent addBody (unset only
if it was never added), and a body added to several worlds appears in
all of their collections. -/
theorem C9_backref_last_add (ops : List WorldOp) (s : Worlds) (b : ℕ) :
    (s.applyAll ops).backRef b =
      (match lastAddedWorld ops b with
       | some w => some w
       | none => s.backRef b) ∧
    (∀ (s2 : Worlds) (w b2 : ℕ), (s2.removeBody w b2).backRef = s2.backRef) := by
  refine ⟨?_, fun s2 w b2 => rfl⟩
  induction ops generalizing s with
  | nil => rfl
  | cons op ops ih =>
    have happ : Worlds.applyAll s (op :: ops) = Worlds.applyAll (s.apply op) ops := rfl
    rw [happ, ih (s.apply op)]
    show (match lastAddedWorld ops b with
          | some w => some w
          | none => (s.apply op).backRef b)
        = (match lastAddedWorld (op :: ops) b with
           | some w => some w
           | none => s.backRef b)
    simp only [lastAddedWorld]
    cases hl : lastAddedWorld ops b with
    | some w => rfl
    | none =>
      cases op with
      | add w b2 =>
        show (if b = b2 then some w else s.backRef b)
            = (match (if b2 = b then some w else none : Option ℕ) with
               | some w => some w
               | none => s.backRef b)
        by_cases hb : b2 = b
        · subst hb; simp
        · rw [if_neg hb, if_neg (Ne.symm hb)]
      | remove w b2 => rfl

/-- Fields of a Body other than the velocity. -/
def Body.framePreserved (x y : Body) : Prop :=
  x.id = y.id ∧ x.pos = y.pos ∧ x.acc = y.acc ∧ x.w = y.w ∧ x.h = y.h ∧
  x.mass = y.mass ∧ x.cr = y.cr ∧ x.μ = y.μ ∧ x.static = y.static ∧
  x.solid = y.solid ∧ x.world = y.world

/-- Fields of a DrawableBody other than the velocity: the non-velocity
base fields plus drawing mode, both vertex lists and the bounding box. -/
def DrawableBody.framePreserved (x y : DrawableBody) : Prop :=
  Body.framePreserved x.base y.base ∧ x.mode = y.mode ∧ x.oPath = y.oPath ∧
  x.path = y.path ∧ x.bb = y.bb

lemma collide_framePreserved (x y : Body) :
    Body.framePreserved (Body.collide x y).1 x ∧
    Body.framePreserved (Body.collide x y).2 y := by
  unfold Body.collide
  split
  · split
    · exact ⟨⟨rfl, rfl, rfl, rfl, rfl, rfl, rfl, rfl, rfl, rfl, rfl⟩,
             ⟨rfl, rfl, rfl, rfl, rfl, rfl, rfl, rfl, rfl, rfl, rfl⟩⟩
    · split
      · exact ⟨⟨rfl, rfl, rfl, rfl, rfl, rfl, rfl, rfl, rfl, rfl, rfl⟩,
               ⟨rfl, rfl, rfl, rfl, rfl, rfl, rfl, rfl, rfl, rfl, rfl⟩⟩
      · exact ⟨⟨rfl, rfl, rfl, rfl, rfl, rfl, rfl, rfl, rfl, rfl, rfl⟩,
               ⟨rfl, rfl, rfl, rfl, rfl, rfl, rfl, rfl, rfl, rfl, rfl⟩⟩
  · exact ⟨⟨rfl, rfl, rfl, rfl, rfl, rfl, rfl, rfl, rfl, rfl, rfl⟩,
           ⟨rfl, rfl, rfl, rfl, rfl, rfl, rfl, rfl, rfl, rfl, rfl⟩⟩

/-- C10: for every pair of bodies, collision resolution modifies at most
the two velocity vectors: position, acceleration, extents, mass,
coefficients, flags, world back-reference, drawing mode, vertex lists
and bounding box of both bodies are unchanged — in particular no
positional separation happens. -/
theorem C10_collide_frame (a b : DrawableBody) :
    DrawableBody.framePreserved (DrawableBody.collide a b).1 a ∧
    DrawableBody.framePreserved (DrawableBody.collide a b).2 b := by
  have h := collide_framePreserved a.base b.base
  exact ⟨⟨h.1, rfl, rfl, rfl, rfl⟩, ⟨h.2, rfl, rfl, rfl, rfl⟩⟩

end P5
